import Mathlib

/-!
Verification development for the Email Document Assistant pipeline
(`src/server.py`).  The Python functions are shallowly embedded as pure
Lean functions:

* a Python `dict[str, str]` becomes an association list `VMap` with
  first-occurrence lookup and first-occurrence update (Python dicts have
  unique keys, so this agrees with dict semantics);
* a PDF document becomes a list of pages, each page a list of widgets
  (`PDoc`); `widget.update()` and `doc.save()` are modelled by returning
  the new document;
* the heterogeneous result dicts of the tool functions become `Dict`,
  an association list over a small value universe `Val`;
* `try`/`except` blocks become explicit error propagation, with the
  handler text (`"Processing failed: ..."`, `"Failed to parse email: ..."`)
  applied where the source applies it.
-/

set_option maxHeartbeats 1000000

/-- ASCII apostrophe, used to build string literals that contain one. -/
def apos : String := String.singleton (Char.ofNat 39)

/-! ## String primitives

The payloads handled by the program are ASCII, so Python's `str.lower`,
`in`, `endswith` and `str.isdigit` are modelled on the character list of
the string, with structural recursion (so that they evaluate inside the
kernel). -/

/-- ASCII lower-casing of one character, as in Python `str.lower`. -/
def charLower (c : Char) : Char :=
  if 65 ≤ c.toNat && c.toNat ≤ 90 then Char.ofNat (c.toNat + 32) else c

/-- Python `s.lower()` (ASCII). -/
def strLower (s : String) : String := String.mk (s.data.map charLower)

/-- Does `pat` occur at the head of `l`? -/
def isPrefixL : List Char → List Char → Bool
  | [], _ => true
  | _ :: _, [] => false
  | a :: as, b :: bs => a == b && isPrefixL as bs

/-- Does `pat` occur anywhere in `l`? -/
def containsSub : List Char → List Char → Bool
  | _, [] => true
  | [], _ :: _ => false
  | c :: rest, p :: ps => isPrefixL (p :: ps) (c :: rest) || containsSub rest (p :: ps)

/-- Python `sub in s` (substring test; the empty string is in every string). -/
def hasSubstr (s sub : String) : Bool := containsSub s.data sub.data

/-- Python `s.endswith(suff)`. -/
def strEndsWith (s suff : String) : Bool := suff.data.isSuffixOf s.data

/-! ## Value maps (Python `dict[str, str]`) -/

abbrev VMap := List (String × String)

/-- Python `m.get(k)`: value at the first occurrence of key `k`. -/
def vmGet (m : VMap) (k : String) : Option String :=
  (m.find? (fun p => p.1 == k)).map (fun p => p.2)

/-- Python `m.get(k, d)`. -/
def vmGetD (m : VMap) (k d : String) : String := (vmGet m k).getD d

/-- Python `k in m`. -/
def vmHas (m : VMap) (k : String) : Bool := (vmGet m k).isSome

/-- Python `m[k] = v`: replace the first occurrence of key `k`, or append
the pair when the key is absent. -/
def vmSet : VMap → String → String → VMap
  | [], k, v => [(k, v)]
  | p :: rest, k, v => if p.1 == k then (k, v) :: rest else p :: vmSet rest k v

/-! ## The month-normalization pass (`_fill_pdf_form`, first loop) -/

/-- Source table `month_map`. -/
def month_map : VMap :=
  [("january", "01"), ("february", "02"), ("march", "03"), ("april", "04"),
   ("may", "05"), ("june", "06"), ("july", "07"), ("august", "08"),
   ("september", "09"), ("october", "10"), ("november", "11"), ("december", "12")]

/-- Body of the first loop of `_fill_pdf_form`:
`if "month" in key.lower() and str(value).lower() in month_map:
processed_values[key] = month_map[str(value).lower()] else: ... = value`. -/
def monthBody (acc : VMap) (kv : String × String) : VMap :=
  match (if hasSubstr (strLower kv.1) "month" then vmGet month_map (strLower kv.2) else none) with
  | some m => vmSet acc kv.1 m
  | none => vmSet acc kv.1 kv.2

/-- First loop of `_fill_pdf_form`: build `processed_values` from
`field_values`, mapping month names to two-digit numbers for keys that
contain `"month"` (case-insensitively). -/
def monthNormalize (field_values : VMap) : VMap :=
  field_values.foldl monthBody []

/-! ## The year-split pass (`_fill_pdf_form`, `# Handle year split`) -/

/-- Python `s[i]` for an in-range index, as a one-character string. -/
def charAt (s : String) (i : Nat) : String := String.singleton (s.data.getD i '0')

/-- Key test in the year scan: `"yr" in key.lower() or "year" in key.lower()`. -/
def isYearKey (k : String) : Bool := hasSubstr (strLower k) "yr" || hasSubstr (strLower k) "year"

/-- Value test in the year scan: `len(str(value)) == 4 and str(value).isdigit()`. -/
def is4Digits (v : String) : Bool := v.length == 4 && v.data.all Char.isDigit

/-- The scan loop: `current_year` is the value at the first year-like key
whose value is a four-digit number, and `"2025"` otherwise. -/
def findYear (pv : VMap) : String :=
  match pv.find? (fun kv => isYearKey kv.1 && is4Digits kv.2) with
  | some kv => kv.2
  | none => "2025"

/-- The four assignments `processed_values["Year-1"] = current_year[0]` … -/
def yearSplit (pv : VMap) : VMap :=
  let current_year := findYear pv
  vmSet (vmSet (vmSet (vmSet pv
    "Year-1" (charAt current_year 0))
    "Year-2" (charAt current_year 1))
    "Year-3" (charAt current_year 2))
    "Year-4" (charAt current_year 3)

/-! ## The default-backfill pass (`_fill_pdf_form`, `# Defaults`) -/

/-- Source table `defaults`. -/
def defaults : VMap :=
  [("Month", "03"), ("Day", "15"), ("Seller State", "CA"), ("Buyer State", "CA"),
   ("Sell zip", "90210"), ("Buyer zip", "90210"),
   ("Sell date 1", "03/15/2025"), ("Sell date 2", "")]

/-- Body of the defaults loop:
`if field not in processed_values or not processed_values.get(field)`. -/
def defaultStep (acc : VMap) (fd : String × String) : VMap :=
  if !(vmHas acc fd.1) || vmGetD acc fd.1 "" == "" then vmSet acc fd.1 fd.2 else acc

def applyDefaults (pv : VMap) : VMap := defaults.foldl defaultStep pv

/-! ## The duplicate-row suppression pass (`# Clear duplicate seller row`) -/

/-- The key `"Print seller's name"` (built to spell the apostrophe). -/
def printSellerKey : String := "Print seller" ++ apos ++ "s name"

/-- `processed_values.get("Print seller's name", "") or
processed_values.get("Seller print name 1", "")`. -/
def firstSeller (pv : VMap) : String :=
  if vmGetD pv printSellerKey "" != "" then vmGetD pv printSellerKey ""
  else vmGetD pv "Seller print name 1" ""

/-- `if not second_seller or second_seller == first_seller:` clear every
key that ends with `" 2"` to the empty string. -/
def clearSecondRow (pv : VMap) : VMap :=
  let second_seller := vmGetD pv "Seller print name 2" ""
  if second_seller == "" || second_seller == firstSeller pv then
    pv.map (fun kv => if strEndsWith kv.1 " 2" then (kv.1, "") else kv)
  else pv

/-- The full normalization chain of `_fill_pdf_form`, in source order. -/
def processedValues (field_values : VMap) : VMap :=
  clearSecondRow (applyDefaults (yearSplit (monthNormalize field_values)))

/-! ## PDF documents and widgets -/

/-- One fillable widget: name, declared type, current value
(`pymupdf` widget attributes used by the program). -/
structure Widget where
  field_name : String
  field_type_string : String
  field_value : String
deriving DecidableEq

/-- A document is its pages in order; a page is its widgets in order. -/
abbrev PDoc := List (List Widget)

/-! ## The commit step of `_fill_pdf_form` (`# Fill form`) -/

/-- Per-widget body of the fill loop: overwrite the value when the
widget's name is a key of `processed_values`, and count the update. -/
def fillWidgetStep (pv : VMap) (acc : List Widget × Nat) (w : Widget) : List Widget × Nat :=
  match vmGet pv w.field_name with
  | some v => (acc.1 ++ [{ w with field_value := v }], acc.2 + 1)
  | none => (acc.1 ++ [w], acc.2)

/-- One iteration of the outer page loop, threading the counter. -/
def pageFill (pv : VMap) (acc : PDoc × Nat) (page : List Widget) : PDoc × Nat :=
  let filled := page.foldl (fillWidgetStep pv) ([], acc.2)
  (acc.1 ++ [filled.1], filled.2)

/-- The nested `for page ... for widget ...` loops: the updated document
together with the final `fields_filled` counter. -/
def commitFill (doc : PDoc) (pv : VMap) : PDoc × Nat :=
  doc.foldl (pageFill pv) ([], 0)

/-- Result of `_fill_pdf_form` on a readable document.  The saved output
file is modelled by `outDoc`; the derived output path and the base64
encoding are filesystem artifacts outside the model. -/
structure FillResult where
  status : String
  message : String
  fields_filled : Nat
  outDoc : PDoc
deriving DecidableEq

/-- `_fill_pdf_form`: normalize the caller's values, then commit them to
the document. -/
def fill_pdf_form (doc : PDoc) (field_values : VMap) : FillResult :=
  let pv := processedValues field_values
  let r := commitFill doc pv
  { status := "success",
    message := "Filled " ++ toString r.2 ++ " fields",
    fields_filled := r.2,
    outDoc := r.1 }

/-! ## `_extract_form_fields` -/

/-- The per-field record stored by `_extract_form_fields`
(`{"type": ..., "value": ..., "page": ...}`). -/
structure FieldInfo where
  type : String
  value : String
  page : Nat
deriving DecidableEq

/-- The `fields` dict of `_extract_form_fields`. -/
abbrev FMap := List (String × FieldInfo)

def fmGet (m : FMap) (k : String) : Option FieldInfo :=
  (m.find? (fun p => p.1 == k)).map (fun p => p.2)

def fmSet : FMap → String → FieldInfo → FMap
  | [], k, v => [(k, v)]
  | p :: rest, k, v => if p.1 == k then (k, v) :: rest else p :: fmSet rest k v

/-- Inner widget loop of `_extract_form_fields` on the page with index
`page_num`; `widget.field_value or ""` is the identity on strings and is
spelled out for the empty case. -/
def extractPageStep (page_num : Nat) (fields : FMap) (w : Widget) : FMap :=
  fmSet fields w.field_name
    { type := w.field_type_string,
      value := if w.field_value == "" then "" else w.field_value,
      page := page_num }

/-- Outer loop `for page_num in range(len(doc))`. -/
def extractPages : PDoc → Nat → FMap → FMap
  | [], _, fields => fields
  | page :: rest, page_num, fields =>
      extractPages rest (page_num + 1) (page.foldl (extractPageStep page_num) fields)

/-- The `fields` mapping produced by `_extract_form_fields`
(later occurrences of a repeated name overwrite earlier ones). -/
def extractFields (doc : PDoc) : FMap := extractPages doc 0 []

/-! ## Result dictionaries of the tool layer

Every tool function returns a Python dict with a `"status"` entry; the
orchestrator reads these dicts by key.  `Val` is the universe of values
appearing in those dicts for this program. -/

inductive Val where
  | str (s : String)
  | num (n : Nat)
  | strList (l : List String)
  | fieldsV (l : FMap)
  | vmapV (l : VMap)
deriving DecidableEq

abbrev Dict := List (String × Val)

/-- Python `d.get(k)` on a result dict. -/
def dGet (d : Dict) (k : String) : Option Val :=
  (d.find? (fun p => p.1 == k)).map (fun p => p.2)

/-- Python `d.get(k, v0)`. -/
def dGetD (d : Dict) (k : String) (v0 : Val) : Val := (dGet d k).getD v0

/-- Python truthiness of `d.get(k)` (`None`, `""` and `[]` are falsy). -/
def optTruthy : Option Val → Bool
  | none => false
  | some (.str s) => !s.data.isEmpty
  | some (.num n) => n != 0
  | some (.strList l) => !l.isEmpty
  | some (.fieldsV l) => !l.isEmpty
  | some (.vmapV l) => !l.isEmpty

/-- Python `str(...)` as used in the orchestrator's f-string (only ever
reached with a number; container reprs are not modelled). -/
def pyStr : Val → String
  | .str s => s
  | .num n => toString n
  | .strList _ => "[...]"
  | .fieldsV _ => "[fields]"
  | .vmapV _ => "[values]"

/-- An error dict `{"status": "error", "message": m}`. -/
def errorResult (m : String) : Dict := [("status", Val.str "error"), ("message", Val.str m)]

/-- An info dict `{"status": "info", "message": m}`. -/
def infoResult (m : String) : Dict := [("status", Val.str "info"), ("message", Val.str m)]

/-! ## `_process_email_automation`

The five stages perform I/O, so the orchestrator is embedded as a
function of five stage oracles.  Its `try`/`except Exception` block is
modelled by the `with...` combinators: each models one Python expression
that can raise, and on a raise produces the handler's
`{"status": "error", "message": f"Processing failed: {str(e)}"}` dict
(for a `KeyError`, `str(e)` is the quoted key). -/

/-- The dict produced when `d[k]` raises `KeyError` inside the
orchestrator's `try` block. -/
def pyKeyErr (k : String) : Dict :=
  errorResult ("Processing failed: " ++ apos ++ k ++ apos)

/-- Python `d[k]` inside the orchestrator's `try` block. -/
def withKey (d : Dict) (k : String) (f : Val → Dict) : Dict :=
  match dGet d k with
  | some v => f v
  | none => pyKeyErr k

/-- Python `v[0]` inside the `try` block. -/
def withIndexZero (v : Val) (f : String → Dict) : Dict :=
  match v with
  | .strList (u :: _) => f u
  | .strList [] => errorResult "Processing failed: list index out of range"
  | .str s =>
      if s.data.isEmpty then errorResult "Processing failed: string index out of range"
      else f (String.singleton (s.data.getD 0 '0'))
  | _ => errorResult "Processing failed: TypeError: value is not subscriptable"

/-- Coercion of a dict entry to the string expected by the next oracle
(the oracle abstraction needs a typed argument; on results actually
produced by this program the entry is always a string). -/
def withString (v : Val) (f : String → Dict) : Dict :=
  match v with
  | .str s => f s
  | _ => errorResult "Processing failed: TypeError: expected a string"

def withFields (v : Val) (f : FMap → Dict) : Dict :=
  match v with
  | .fieldsV l => f l
  | _ => errorResult "Processing failed: TypeError: expected a field mapping"

def withVMap (v : Val) (f : VMap → Dict) : Dict :=
  match v with
  | .vmapV l => f l
  | _ => errorResult "Processing failed: TypeError: expected a value mapping"

/-- `excluded_patterns` of step 4. -/
def excludedPatterns : List String := ["Year-1", "Year-2", "Year-3", "Year-4"]

/-- The list comprehension selecting the field names sent to the
generator: non-button fields not in the exclusion list. -/
def synthNames (fl : FMap) : List String :=
  (fl.map Prod.fst).filter (fun name =>
    (match fl.find? (fun p => p.1 == name) with
     | some p => p.2.type != "Button"
     | none => false) && !(excludedPatterns.contains name))

/-- `_process_email_automation`, with the five stages as oracles. -/
def processEmailAutomation (parse : String → Dict) (download : String → Dict)
    (extract : String → Dict) (generate : List String → Dict)
    (fill : String → VMap → Dict) (email_json_url : String) : Dict :=
  let email_result := parse email_json_url
  withKey email_result "status" fun st =>
  if st != Val.str "success" || !(optTruthy (dGet email_result "pdf_urls")) then
    errorResult "No PDF found in email"
  else withKey email_result "pdf_urls" fun urlsv =>
  withIndexZero urlsv fun pdf_url =>
  let download_result := download pdf_url
  withKey download_result "status" fun dst =>
  if dst != Val.str "success" then download_result
  else withKey download_result "filepath" fun fpv =>
  withString fpv fun pdf_path =>
  let extract_result := extract pdf_path
  withKey extract_result "status" fun est =>
  if est != Val.str "success" then extract_result
  else withKey extract_result "num_fields" fun nf =>
  if nf == Val.num 0 then infoResult "PDF has no fillable form fields"
  else withKey extract_result "fields" fun flv =>
  withFields flv fun fl =>
  let gen_result := generate (synthNames fl)
  withKey gen_result "status" fun gst =>
  if gst != Val.str "success" then gen_result
  else withKey gen_result "generated_values" fun gvv =>
  withVMap gvv fun gv =>
  let fill_result := fill pdf_path gv
  withKey email_result "subject" fun subj =>
  withKey fill_result "output_path" fun outp =>
  withKey fill_result "fields_filled" fun ffv =>
  [("status", Val.str "success"),
   ("email_subject", subj),
   ("original_pdf", Val.str pdf_path),
   ("filled_pdf", outp),
   ("fields_filled", ffv),
   ("pdf_base64", dGetD fill_result "pdf_base64" (Val.str "")),
   ("download_instructions", dGetD fill_result "download_instructions" (Val.str "")),
   ("message", Val.str ("✅ Successfully filled " ++ pyStr ffv ++ " fields!"))]

/-! ## Shapes of the stage results, as returned by the source functions -/

/-- The success dict of `_parse_email`. -/
def parseSuccessD (sender subject : String) (urls : List String) : Dict :=
  [("status", Val.str "success"), ("sender", Val.str sender), ("subject", Val.str subject),
   ("pdf_count", Val.num urls.length), ("pdf_urls", Val.strList urls)]

/-- The success dict of `_download_pdf`. -/
def downloadSuccessD (path : String) (size : Nat) : Dict :=
  [("status", Val.str "success"), ("message", Val.str ("Downloaded PDF to " ++ path)),
   ("filepath", Val.str path), ("size_bytes", Val.num size)]

/-- The success dict of `_extract_form_fields` (`num_fields` is the size
of the `fields` dict). -/
def extractSuccessD (path : String) (fl : FMap) : Dict :=
  [("status", Val.str "success"), ("filepath", Val.str path),
   ("num_fields", Val.num fl.length), ("fields", Val.fieldsV fl)]

/-- `_extract_form_fields` on a readable document. -/
def extract_form_fields (pdf_path : String) (doc : PDoc) : Dict :=
  extractSuccessD pdf_path (extractFields doc)

/-- The success dict of `_generate_form_values`. -/
def genSuccessD (values : VMap) : Dict :=
  [("status", Val.str "success"), ("generated_values", Val.vmapV values),
   ("fields_filled", Val.num values.length)]

/-! ## `_parse_email`

The fetched body is modelled as a JSON value (`response.json()` failing,
like a network failure, is the `Except.error` input case). -/

inductive Json where
  | null
  | bool (b : Bool)
  | num (n : Int)
  | str (s : String)
  | arr (l : List Json)
  | obj (l : List (String × Json))

mutual

/-- Python `str` of a JSON value, as produced by `str(part)` in the
source (Python dict/list repr with single quotes). -/
def jsonStr : Json → String
  | .null => "None"
  | .bool true => "True"
  | .bool false => "False"
  | .num n => toString n
  | .str s => apos ++ s ++ apos
  | .arr l => "[" ++ jsonStrList l ++ "]"
  | .obj l => "\x7b" ++ jsonStrObj l ++ "\x7d"

/-- Comma-separated reprs of list elements. -/
def jsonStrList : List Json → String
  | [] => ""
  | [j] => jsonStr j
  | j :: rest => jsonStr j ++ ", " ++ jsonStrList rest

/-- Comma-separated `'key': value` reprs of object entries. -/
def jsonStrObj : List (String × Json) → String
  | [] => ""
  | [(k, j)] => apos ++ k ++ apos ++ ": " ++ jsonStr j
  | (k, j) :: rest => apos ++ k ++ apos ++ ": " ++ jsonStr j ++ ", " ++ jsonStrObj rest

end

/-- Python `j.get(k, d)`: raises (`AttributeError`) unless `j` is a dict. -/
def jGetD (j : Json) (k : String) (d : Json) : Except String Json :=
  match j with
  | .obj l => .ok (((l.find? (fun p => p.1 == k)).map (fun p => p.2)).getD d)
  | _ => .error "AttributeError: object has no attribute get"

/-- Python iteration `for part in parts`: lists iterate their elements,
strings their characters, dicts their keys; other values raise. -/
def jIter : Json → Except String (List Json)
  | .arr l => .ok l
  | .str s => .ok (s.data.map (fun c => Json.str (String.singleton c)))
  | .obj l => .ok (l.map (fun p => Json.str p.1))
  | _ => .error "TypeError: object is not iterable"

/-- The literal part of the pattern `https://drive\.google\.com/[^\s'\"]+`. -/
def driveChars : List Char := "https://drive.google.com/".data

/-- A character matched by `[^\s'\"]`. -/
def linkChar (c : Char) : Bool :=
  !(c.isWhitespace || c == Char.ofNat 39 || c == Char.ofNat 34)

/-- Left-to-right, non-overlapping scan of `re.findall` for the pattern
above: at each position where the literal occurs, take the maximal
nonempty run of link characters after it. -/
def findDriveAux (l : List Char) : List String :=
  match l with
  | [] => []
  | c :: rest =>
    if isPrefixL driveChars (c :: rest) then
      -- dropping the 25 literal characters from `c :: rest` is dropping
      -- 24 from `rest`, which keeps the termination measure decreasing
      let after := rest.drop (driveChars.length - 1)
      let run := after.takeWhile linkChar
      if run.isEmpty then findDriveAux rest
      else String.mk (driveChars ++ run) :: findDriveAux (after.drop run.length)
    else findDriveAux rest
termination_by l.length
decreasing_by
  all_goals simp [List.length_drop] <;> omega

/-- `re.findall(r'https://drive\.google\.com/[^\s'\"]+', s)`. -/
def findDriveLinks (s : String) : List String := findDriveAux s.data

/-- The two result shapes of `_parse_email`: the success dict carries
`sender.get("email", "")` and `subject` (raw JSON values) and the
collected URLs (with `pdf_count` equal to their number). -/
inductive ParseOut where
  | ok (senderEmail : Json) (subject : Json) (pdf_urls : List String)
  | err (message : String)

/-- The attachment loop of `_parse_email` over the message parts. -/
def scanParts : List Json → Except String (List String)
  | [] => .ok []
  | part :: rest =>
    match jGetD part "filename" (Json.str "") with
    | .error e => .error e
    | .ok filename =>
      match filename with
      | .str fs =>
        if strEndsWith fs ".pdf" then
          if hasSubstr (jsonStr part) "drive.google.com" then
            match scanParts rest with
            | .error e => .error e
            | .ok tail => .ok (findDriveLinks (jsonStr part) ++ tail)
          else
            match scanParts rest with
            | .error e => .error e
            | .ok tail => .ok tail
        else scanParts rest
      | _ => .error "AttributeError: object has no attribute endswith"

/-- Body of the `try` block of `_parse_email` after a successful fetch. -/
def parseEmailData (email_data : Json) : Except String ParseOut :=
  match jGetD email_data "sender" (Json.obj []) with
  | .error e => .error e
  | .ok sender =>
  match jGetD email_data "subject" (Json.str "") with
  | .error e => .error e
  | .ok subject =>
  match jGetD email_data "payload" (Json.obj []) with
  | .error e => .error e
  | .ok payload =>
  match jGetD payload "parts" (Json.arr []) with
  | .error e => .error e
  | .ok partsj =>
  match jIter partsj with
  | .error e => .error e
  | .ok parts =>
  match scanParts parts with
  | .error e => .error e
  | .ok pdf_urls =>
  match jGetD sender "email" (Json.str "") with
  | .error e => .error e
  | .ok senderEmail => .ok (ParseOut.ok senderEmail subject pdf_urls)

/-- `_parse_email`: the fetch/decode outcome is the input; any raise is
turned into the handler's error result. -/
def parse_email (fetched : Except String Json) : ParseOut :=
  match fetched with
  | .error e => ParseOut.err ("Failed to parse email: " ++ e)
  | .ok email_data =>
    match parseEmailData email_data with
    | .ok r => r
    | .error e => ParseOut.err ("Failed to parse email: " ++ e)

/-! ## Lemmas about the map primitives -/

theorem vmGet_nil (k : String) : vmGet [] k = none := rfl

theorem vmGet_cons (p : String × String) (m : VMap) (k : String) :
    vmGet (p :: m) k = if p.1 == k then some p.2 else vmGet m k := by
  by_cases h : p.1 == k <;> simp [vmGet, List.find?, h]

theorem vmGet_vmSet_self (m : VMap) (k v : String) : vmGet (vmSet m k v) k = some v := by
  induction m with
  | nil => simp [vmSet, vmGet_cons]
  | cons p rest ih =>
    by_cases h : p.1 == k
    · simp [vmSet, h, vmGet_cons]
    · simp [vmSet, h, vmGet_cons, ih]

theorem vmGet_vmSet_ne (m : VMap) (k v k' : String) (h : k' ≠ k) :
    vmGet (vmSet m k v) k' = vmGet m k' := by
  have hkk : (k == k') = false := beq_eq_false_iff_ne.mpr (Ne.symm h)
  induction m with
  | nil => simp [vmSet, vmGet_cons, vmGet_nil, hkk]
  | cons p rest ih =>
    by_cases hp : p.1 == k
    · have hpk : p.1 = k := by simpa using hp
      simp [vmSet, hp, vmGet_cons, hpk, hkk]
    · simp [vmSet, hp, vmGet_cons, ih]

theorem vmGet_eq_none_of_not_mem (m : VMap) (k : String)
    (h : k ∉ m.map Prod.fst) : vmGet m k = none := by
  induction m with
  | nil => rfl
  | cons p rest ih =>
    simp only [List.map_cons, List.mem_cons] at h
    push_neg at h
    have hb : (p.1 == k) = false := beq_eq_false_iff_ne.mpr (Ne.symm h.1)
    simp [vmGet_cons, hb, ih h.2]

theorem vmSet_append_of_absent (m : VMap) (k v : String)
    (h : k ∉ m.map Prod.fst) : vmSet m k v = m ++ [(k, v)] := by
  induction m with
  | nil => rfl
  | cons p rest ih =>
    simp only [List.map_cons, List.mem_cons] at h
    push_neg at h
    have hb : (p.1 == k) = false := beq_eq_false_iff_ne.mpr (Ne.symm h.1)
    simp [vmSet, hb, ih h.2]

theorem find?_filter_comm {α : Type} (l : List α) (p q : α → Bool) :
    (l.filter p).find? q = l.find? (fun a => p a && q a) := by
  induction l with
  | nil => rfl
  | cons a l ih =>
    by_cases hp : p a
    · by_cases hq : q a <;> simp [List.filter_cons, hp, List.find?_cons, hq, ih]
    · simp [List.filter_cons, hp, List.find?_cons, ih]

/-! ## Claim C2: year decomposition -/

/-- The canonical year as the claim words it: among the pairs whose key
contains `"yr"` or `"year"` (case-insensitively), the first value that is
a 4-digit all-numeric string; `"2025"` when there is none. -/
def claimYear (pv : VMap) : String :=
  match (pv.filter (fun kv => isYearKey kv.1)).find? (fun kv => is4Digits kv.2) with
  | some kv => kv.2
  | none => "2025"

theorem findYear_eq_claimYear (pv : VMap) : findYear pv = claimYear pv := by
  simp [findYear, claimYear, find?_filter_comm]

theorem claimYear_length (pv : VMap) : (claimYear pv).length = 4 := by
  unfold claimYear
  cases hf : (pv.filter (fun kv => isYearKey kv.1)).find? (fun kv => is4Digits kv.2) with
  | none => rfl
  | some kv =>
    have := List.find?_some hf
    simp [is4Digits] at this
    exact this.1

/-! ## Lemmas for the defaults pass -/

theorem defaultStep_eq (acc : VMap) (fd : String × String) :
    defaultStep acc fd =
      if vmGet acc fd.1 = none ∨ vmGet acc fd.1 = some "" then vmSet acc fd.1 fd.2 else acc := by
  unfold defaultStep vmHas vmGetD
  cases h : vmGet acc fd.1 with
  | none => simp [h]
  | some v => by_cases hv : v = "" <;> simp [h, hv]

theorem foldl_defaultStep_frame (ds : VMap) (pv : VMap) (k : String)
    (h : ∀ p ∈ ds, p.1 ≠ k) :
    vmGet (ds.foldl defaultStep pv) k = vmGet pv k := by
  induction ds generalizing pv with
  | nil => rfl
  | cons d ds ih =>
    simp only [List.foldl_cons]
    rw [ih _ (fun p hp => h p (List.mem_cons_of_mem _ hp))]
    rw [defaultStep_eq]
    split
    · exact vmGet_vmSet_ne _ _ _ _ (Ne.symm (h d (List.mem_cons_self _ _)))
    · rfl

theorem foldl_defaultStep_get (ds : VMap) (pv : VMap) (k : String)
    (hnd : (ds.map Prod.fst).Nodup) :
    vmGet (ds.foldl defaultStep pv) k =
      match vmGet ds k with
      | some dv => if vmGet pv k = none ∨ vmGet pv k = some "" then some dv else vmGet pv k
      | none => vmGet pv k := by
  induction ds generalizing pv with
  | nil => rfl
  | cons d ds ih =>
    simp only [List.map_cons, List.nodup_cons] at hnd
    by_cases hk : d.1 = k
    · subst hk
      have htail : ∀ p ∈ ds, p.1 ≠ d.1 := fun p hp he =>
        hnd.1 (he ▸ List.mem_map_of_mem Prod.fst hp)
      simp only [List.foldl_cons]
      rw [foldl_defaultStep_frame ds _ _ htail, defaultStep_eq, vmGet_cons]
      simp only [beq_self_eq_true, if_true]
      split
      · rw [vmGet_vmSet_self]
      · rfl
    · have hb : (d.1 == k) = false := beq_eq_false_iff_ne.mpr hk
      simp only [List.foldl_cons]
      rw [ih _ hnd.2]
      have hstep : vmGet (defaultStep pv d) k = vmGet pv k := by
        rw [defaultStep_eq]
        split
        · exact vmGet_vmSet_ne _ _ _ _ (Ne.symm hk)
        · rfl
      rw [hstep, vmGet_cons, hb]
      simp

/-! ## Lemmas for the duplicate-row pass -/

theorem vmGet_map_clear (pv : VMap) (k : String) :
    vmGet (pv.map (fun kv => if strEndsWith kv.1 " 2" then (kv.1, "") else kv)) k =
      (vmGet pv k).map (fun v => if strEndsWith k " 2" then "" else v) := by
  induction pv with
  | nil => rfl
  | cons p rest ih =>
    by_cases hp : p.1 == k
    · have hpk : p.1 = k := by simpa using hp
      by_cases he : strEndsWith p.1 " 2" <;>
        simp [List.map_cons, he, vmGet_cons, hp, hpk ▸ he]
    · by_cases he : strEndsWith p.1 " 2" <;>
        simp [List.map_cons, he, vmGet_cons, hp, ih]

/-! ## Lemmas for the month pass -/

/-- The per-pair month rule as the claim words it: when the name contains
`"month"` (case-insensitively) and the lower-cased value is a full month
name, the value becomes that month's two-digit number. -/
def monthRule (kv : String × String) : String × String :=
  if hasSubstr (strLower kv.1) "month" then
    match vmGet month_map (strLower kv.2) with
    | some m => (kv.1, m)
    | none => kv
  else kv

theorem monthRule_fst (kv : String × String) : (monthRule kv).1 = kv.1 := by
  unfold monthRule
  split
  · split <;> rfl
  · rfl

theorem monthBody_eq_set (acc : VMap) (kv : String × String) :
    monthBody acc kv = vmSet acc kv.1 (monthRule kv).2 := by
  unfold monthBody monthRule
  by_cases hc : hasSubstr (strLower kv.1) "month"
  · cases hm : vmGet month_map (strLower kv.2) <;> simp [hc, hm]
  · simp [hc]

theorem monthNormalize_aux (l : List (String × String)) :
    ∀ acc : VMap, (acc.map Prod.fst ++ l.map Prod.fst).Nodup →
      l.foldl monthBody acc = acc ++ l.map monthRule := by
  induction l with
  | nil => intro acc _; simp
  | cons kv tl ih =>
    intro acc hnd
    simp only [List.foldl_cons, List.map_cons]
    rw [monthBody_eq_set]
    rw [List.nodup_append] at hnd
    have hmem : kv.1 ∉ acc.map Prod.fst := fun hin =>
      hnd.2.2 hin (List.mem_cons_self _ _)
    rw [vmSet_append_of_absent _ _ _ hmem]
    rw [ih (acc ++ [(kv.1, (monthRule kv).2)]) ?_]
    · have hpair : (kv.1, (monthRule kv).2) = monthRule kv := by
        rw [← monthRule_fst kv]
      rw [hpair]
      simp
    · rw [List.nodup_append]
      refine ⟨?_, ?_, ?_⟩
      · rw [List.map_append]
        rw [List.nodup_append]
        refine ⟨hnd.1, by simp, ?_⟩
        intro a ha
        simp only [List.map_cons, List.map_nil, List.mem_singleton]
        intro he
        exact hnd.2.2 (he ▸ ha) (List.mem_cons_self _ _)
      · exact (List.nodup_cons.mp hnd.2.1).2
      · intro a ha
        rw [List.map_append] at ha
        rcases List.mem_append.mp ha with h1 | h1
        · exact fun h2 => hnd.2.2 h1 (List.mem_cons_of_mem _ h2)
        · simp only [List.map_cons, List.map_nil, List.mem_singleton] at h1
          subst h1
          exact (List.nodup_cons.mp hnd.2.1).1

theorem monthNormalize_eq_map (fv : VMap) (hnd : (fv.map Prod.fst).Nodup) :
    monthNormalize fv = fv.map monthRule := by
  have h := monthNormalize_aux fv [] (by simpa using hnd)
  simpa [monthNormalize] using h

theorem month_map_values_fixed :
    ∀ p ∈ month_map, vmGet month_map (strLower p.2) = none := by decide

theorem monthRule_idem (kv : String × String) : monthRule (monthRule kv) = monthRule kv := by
  by_cases hc : hasSubstr (strLower kv.1) "month"
  · cases hm : vmGet month_map (strLower kv.2) with
    | none =>
      unfold monthRule
      simp [hc, hm]
    | some m =>
      have hmm : vmGet month_map (strLower m) = none := by
        unfold vmGet at hm
        cases hfind : List.find? (fun p => p.1 == strLower kv.2) month_map with
        | none => simp [hfind] at hm
        | some p =>
          rw [hfind] at hm
          have hp2 : p.2 = m := by simpa using hm
          rw [← hp2]
          exact month_map_values_fixed p (List.mem_of_find?_eq_some hfind)
      conv_lhs => rw [monthRule]
      simp only [monthRule, hc, hm, if_true]
      simp [hc, hmm]
  · unfold monthRule
    simp [hc]

/-! ## Lemmas for the commit and extract steps -/

/-- The effect of the fill loop on one widget. -/
def updWidget (pv : VMap) (w : Widget) : Widget :=
  match vmGet pv w.field_name with
  | some v => { w with field_value := v }
  | none => w

/-- Number of widgets of a page whose name is a key of the map. -/
def countHit (pv : VMap) (page : List Widget) : Nat :=
  (page.filter (fun w => vmHas pv w.field_name)).length

theorem foldl_fillWidgetStep (pv : VMap) (page : List Widget) :
    ∀ (ws : List Widget) (n : Nat),
      page.foldl (fillWidgetStep pv) (ws, n) =
        (ws ++ page.map (updWidget pv), n + countHit pv page) := by
  induction page with
  | nil => intro ws n; simp [countHit]
  | cons w tl ih =>
    intro ws n
    simp only [List.foldl_cons]
    cases hw : vmGet pv w.field_name with
    | some v =>
      have hstep : fillWidgetStep pv (ws, n) w = (ws ++ [{ w with field_value := v }], n + 1) := by
        simp [fillWidgetStep, hw]
      rw [hstep, ih]
      simp [updWidget, hw, countHit, vmHas, List.filter_cons]
      omega
    | none =>
      have hstep : fillWidgetStep pv (ws, n) w = (ws ++ [w], n) := by
        simp [fillWidgetStep, hw]
      rw [hstep, ih]
      simp [updWidget, hw, countHit, vmHas, List.filter_cons]

theorem pageFill_eq (pv : VMap) (ws : PDoc) (n : Nat) (page : List Widget) :
    pageFill pv (ws, n) page = (ws ++ [page.map (updWidget pv)], n + countHit pv page) := by
  simp only [pageFill, foldl_fillWidgetStep, List.nil_append]

theorem commitFill_eq (doc : PDoc) (pv : VMap) :
    commitFill doc pv =
      (doc.map (fun pg => pg.map (updWidget pv)), (doc.map (countHit pv)).sum) := by
  suffices h : ∀ (ws : PDoc) (n : Nat),
      doc.foldl (pageFill pv) (ws, n)
      = (ws ++ doc.map (fun pg => pg.map (updWidget pv)), n + (doc.map (countHit pv)).sum) by
    simpa [commitFill] using h [] 0
  induction doc with
  | nil => intro ws n; simp
  | cons pg tl ih =>
    intro ws n
    rw [List.foldl_cons, pageFill_eq, ih]
    simp [List.append_assoc, Nat.add_assoc]

theorem fmGet_nil (k : String) : fmGet [] k = none := rfl

theorem fmGet_cons (p : String × FieldInfo) (m : FMap) (k : String) :
    fmGet (p :: m) k = if p.1 == k then some p.2 else fmGet m k := by
  by_cases h : p.1 == k <;> simp [fmGet, List.find?, h]

theorem fmGet_fmSet_self (m : FMap) (k : String) (v : FieldInfo) :
    fmGet (fmSet m k v) k = some v := by
  induction m with
  | nil => simp [fmSet, fmGet_cons]
  | cons p rest ih =>
    by_cases h : p.1 == k
    · simp [fmSet, h, fmGet_cons]
    · simp [fmSet, h, fmGet_cons, ih]

theorem fmGet_fmSet_ne (m : FMap) (k : String) (v : FieldInfo) (k' : String) (h : k' ≠ k) :
    fmGet (fmSet m k v) k' = fmGet m k' := by
  have hkk : (k == k') = false := beq_eq_false_iff_ne.mpr (Ne.symm h)
  induction m with
  | nil => simp [fmSet, fmGet_cons, fmGet_nil, hkk]
  | cons p rest ih =>
    by_cases hp : p.1 == k
    · have hpk : p.1 = k := by simpa using hp
      simp [fmSet, hp, fmGet_cons, hpk, hkk]
    · simp [fmSet, hp, fmGet_cons, ih]

theorem foldl_extractPageStep_get (pn : Nat) (page : List Widget) (name v : String) :
    ∀ acc : FMap,
      (∀ w ∈ page, w.field_name = name → w.field_value = v) →
      ((∃ w ∈ page, w.field_name = name) ∨
        (fmGet acc name).map (fun i => i.value) = some v) →
      (fmGet (page.foldl (extractPageStep pn) acc) name).map (fun i => i.value) = some v := by
  induction page with
  | nil =>
    intro acc _ hsome
    rcases hsome with h | h
    · rcases h with ⟨w, hw, _⟩
      cases hw
    · simpa using h
  | cons w tl ih =>
    intro acc hall hsome
    simp only [List.foldl_cons]
    by_cases hn : w.field_name = name
    · apply ih
      · exact fun w' hw' h => hall w' (List.mem_cons_of_mem _ hw') h
      · right
        unfold extractPageStep
        rw [hn, fmGet_fmSet_self]
        have hv := hall w (List.mem_cons_self _ _) hn
        rw [hv]
        by_cases hve : v = "" <;> simp [hve]
    · apply ih
      · exact fun w' hw' h => hall w' (List.mem_cons_of_mem _ hw') h
      · rcases hsome with h | h
        · rcases h with ⟨w', hw', hname⟩
          rcases List.mem_cons.mp hw' with he | hw'
          · exact absurd (he ▸ hname) hn
          · exact Or.inl ⟨w', hw', hname⟩
        · right
          unfold extractPageStep
          rw [fmGet_fmSet_ne _ _ _ _ (fun he => hn he.symm)]
          exact h

theorem extractPages_get (doc : PDoc) (name v : String) :
    ∀ (pn : Nat) (acc : FMap),
      (∀ pg ∈ doc, ∀ w ∈ pg, w.field_name = name → w.field_value = v) →
      ((∃ pg ∈ doc, ∃ w ∈ pg, w.field_name = name) ∨
        (fmGet acc name).map (fun i => i.value) = some v) →
      (fmGet (extractPages doc pn acc) name).map (fun i => i.value) = some v := by
  induction doc with
  | nil =>
    intro pn acc _ hsome
    rcases hsome with h | h
    · rcases h with ⟨pg, hpg, _⟩
      cases hpg
    · simpa [extractPages] using h
  | cons pg tl ih =>
    intro pn acc hall hsome
    simp only [extractPages]
    apply ih
    · exact fun pg' h w hw => hall pg' (List.mem_cons_of_mem _ h) w hw
    · by_cases hpg : ∃ w ∈ pg, w.field_name = name
      · exact Or.inr (foldl_extractPageStep_get pn pg name v acc
          (hall pg (List.mem_cons_self _ _)) (Or.inl hpg))
      · rcases hsome with h | h
        · rcases h with ⟨pg', hpg', hw⟩
          rcases List.mem_cons.mp hpg' with he | hpg'
          · exact absurd (he ▸ hw) hpg
          · exact Or.inl ⟨pg', hpg', hw⟩
        · exact Or.inr (foldl_extractPageStep_get pn pg name v acc
            (hall pg (List.mem_cons_self _ _)) (Or.inr h))

theorem extractPages_all_nil (doc : PDoc) :
    ∀ (pn : Nat) (acc : FMap), (∀ pg ∈ doc, pg = []) → extractPages doc pn acc = acc := by
  induction doc with
  | nil => intro pn acc _; rfl
  | cons pg tl ih =>
    intro pn acc h
    have hpg : pg = [] := h pg (List.mem_cons_self _ _)
    subst hpg
    simp only [extractPages, List.foldl_nil]
    exact ih _ _ (fun pg' h' => h pg' (List.mem_cons_of_mem _ h'))

/-! ## Claim theorems for the normalization pipeline -/

/-- C2: for every value map, the year-split step takes as canonical year
the first 4-digit all-numeric value among the pairs whose key contains
"yr" or "year" (case-insensitively), defaulting to "2025" when none
exists, and writes its four characters in order under the keys
`Year-1` … `Year-4`, overwriting any prior values there. -/
theorem claim_C2_year_decomposition (pv : VMap) :
    vmGet (yearSplit pv) "Year-1" = some (charAt (claimYear pv) 0) ∧
    vmGet (yearSplit pv) "Year-2" = some (charAt (claimYear pv) 1) ∧
    vmGet (yearSplit pv) "Year-3" = some (charAt (claimYear pv) 2) ∧
    vmGet (yearSplit pv) "Year-4" = some (charAt (claimYear pv) 3) ∧
    (claimYear pv).length = 4 := by
  have hy := findYear_eq_claimYear pv
  simp only [yearSplit]
  rw [hy]
  refine ⟨?_, ?_, ?_, ?_, claimYear_length pv⟩
  · rw [vmGet_vmSet_ne _ _ _ _ (by decide), vmGet_vmSet_ne _ _ _ _ (by decide),
        vmGet_vmSet_ne _ _ _ _ (by decide), vmGet_vmSet_self]
  · rw [vmGet_vmSet_ne _ _ _ _ (by decide), vmGet_vmSet_ne _ _ _ _ (by decide),
        vmGet_vmSet_self]
  · rw [vmGet_vmSet_ne _ _ _ _ (by decide), vmGet_vmSet_self]
  · rw [vmGet_vmSet_self]

/-- C3: during normalization, when the secondary seller name (key
`"Seller print name 2"`) is empty/absent or equal to the primary seller
name (key `"Print seller's name"`, falling back to
`"Seller print name 1"`), every key ending in `" 2"` is set to the empty
string; otherwise the pass changes nothing. -/
theorem claim_C3_duplicate_row_suppression (pv : VMap) (k : String) :
    vmGet (clearSecondRow pv) k =
      if (vmGetD pv "Seller print name 2" "" = "" ∨
          vmGetD pv "Seller print name 2" "" = firstSeller pv) ∧ strEndsWith k " 2" = true
      then (vmGet pv k).map (fun _ => "")
      else vmGet pv k := by
  simp only [clearSecondRow]
  by_cases hc : vmGetD pv "Seller print name 2" "" = "" ∨
      vmGetD pv "Seller print name 2" "" = firstSeller pv
  · have hb : (vmGetD pv "Seller print name 2" "" == "" ||
        vmGetD pv "Seller print name 2" "" == firstSeller pv) = true := by
      rcases hc with h | h <;> simp [h]
    rw [hb]
    simp only [if_true]
    rw [vmGet_map_clear]
    by_cases he : strEndsWith k " 2"
    · simp [he, hc]
    · simp [he, hc]
  · push_neg at hc
    have hb : (vmGetD pv "Seller print name 2" "" == "" ||
        vmGetD pv "Seller print name 2" "" == firstSeller pv) = false := by
      simp [beq_eq_false_iff_ne.mpr hc.1, beq_eq_false_iff_ne.mpr hc.2]
    rw [hb]
    simp only [Bool.false_eq_true, if_false]
    have : ¬((vmGetD pv "Seller print name 2" "" = "" ∨
        vmGetD pv "Seller print name 2" "" = firstSeller pv) ∧ strEndsWith k " 2" = true) := by
      intro h
      rcases h.1 with h1 | h1
      · exact hc.1 h1
      · exact hc.2 h1
    rw [if_neg this]

/-- C4: for every value map and key, default backfill assigns the fixed
default of the table exactly when the map has no entry or an empty value
under that key; a present non-empty entry (and every key outside the
table) is left unchanged. -/
theorem claim_C4_default_backfill (pv : VMap) (k : String) :
    vmGet (applyDefaults pv) k =
      match vmGet defaults k with
      | some dv => if vmGet pv k = none ∨ vmGet pv k = some "" then some dv else vmGet pv k
      | none => vmGet pv k := by
  unfold applyDefaults
  exact foldl_defaultStep_get defaults pv k (by decide)

/-- C5: month normalization acts pointwise on a duplicate-free map — a
pair is replaced by its two-digit month number exactly when the name
contains "month" (case-insensitively) and the lower-cased value is a
full English month name, every other pair passing through — and the pass
is idempotent. -/
theorem claim_C5_month_normalization (fv : VMap) (hnd : (fv.map Prod.fst).Nodup) :
    monthNormalize fv = fv.map monthRule ∧
    monthNormalize (monthNormalize fv) = monthNormalize fv := by
  have h1 := monthNormalize_eq_map fv hnd
  have hkeys : (monthNormalize fv).map Prod.fst = fv.map Prod.fst := by
    rw [h1, List.map_map]
    exact List.map_congr_left (fun kv _ => monthRule_fst kv)
  have h2 := monthNormalize_eq_map (monthNormalize fv) (hkeys ▸ hnd)
  refine ⟨h1, ?_⟩
  rw [h2, h1, List.map_map]
  exact List.map_congr_left (fun kv _ => monthRule_idem kv)

/-- Witness for C5 at the spec's own scenario `{"Month": "March"}`. -/
theorem claim_C5_witness :
    monthNormalize [("Month", "March")] = [("Month", "03")] ∧
    monthNormalize (monthNormalize [("Month", "March")]) = monthNormalize [("Month", "March")] := by
  have h := claim_C5_month_normalization [("Month", "March")] (by decide)
  exact ⟨h.1.trans (by decide), h.2⟩

/-- The name of a widget is untouched by the fill loop. -/
theorem updWidget_field_name (pv : VMap) (w : Widget) :
    (updWidget pv w).field_name = w.field_name := by
  unfold updWidget
  split <;> rfl

/-- C8: the commit step of `fillPdfForm` leaves every widget whose name
is not a key of the post-normalization map exactly as it was. -/
theorem claim_C8_commit_frame (doc : PDoc) (fv : VMap) (i j : Nat) (w : Widget)
    (hw : (doc[i]?.bind (fun pg => pg[j]?)) = some w)
    (hnot : vmGet (processedValues fv) w.field_name = none) :
    ((fill_pdf_form doc fv).outDoc[i]?.bind (fun pg => pg[j]?)) = some w := by
  have hout : (fill_pdf_form doc fv).outDoc
      = doc.map (fun pg => pg.map (updWidget (processedValues fv))) := by
    simp [fill_pdf_form, commitFill_eq]
  rw [hout]
  cases hdi : doc[i]? with
  | none => rw [hdi] at hw; simp at hw
  | some pg =>
    rw [hdi] at hw
    have hj : pg[j]? = some w := by simpa using hw
    rw [List.getElem?_map, hdi]
    simp only [Option.map_some', Option.some_bind]
    rw [List.getElem?_map, hj]
    simp [updWidget, hnot]

/-- Witness for C8: a widget whose name the normalized map does not
mention keeps its value. -/
theorem claim_C8_witness :
    ((fill_pdf_form [[⟨"Other", "Text", "keep"⟩]] []).outDoc[0]?.bind
      (fun pg => pg[0]?)) = some ⟨"Other", "Text", "keep"⟩ :=
  claim_C8_commit_frame [[⟨"Other", "Text", "keep"⟩]] [] 0 0 ⟨"Other", "Text", "keep"⟩
    (by decide) (by decide)

/-- C9: a field name present both in the document and in the
post-normalization map reads back, after re-inspecting the saved
document, exactly the normalized value; and `fields_filled` counts the
widgets whose name is a key of the map. -/
theorem claim_C9_roundtrip (doc : PDoc) (fv : VMap) (name v : String)
    (hv : vmGet (processedValues fv) name = some v)
    (hin : ∃ pg ∈ doc, ∃ w ∈ pg, w.field_name = name) :
    (fmGet (extractFields (fill_pdf_form doc fv).outDoc) name).map (fun i => i.value) = some v ∧
    (fill_pdf_form doc fv).fields_filled =
      (doc.map (fun pg =>
        (pg.filter (fun w => vmHas (processedValues fv) w.field_name)).length)).sum := by
  have hout : (fill_pdf_form doc fv).outDoc
      = doc.map (fun pg => pg.map (updWidget (processedValues fv))) := by
    simp [fill_pdf_form, commitFill_eq]
  constructor
  · rw [hout]
    unfold extractFields
    apply extractPages_get
    · intro pg hpg w hw hname
      rcases List.mem_map.mp hpg with ⟨pg0, _, rfl⟩
      rcases List.mem_map.mp hw with ⟨w0, _, rfl⟩
      rw [updWidget_field_name] at hname
      unfold updWidget
      rw [hname, hv]
    · left
      rcases hin with ⟨pg0, hpg0, w0, hw0, hname0⟩
      exact ⟨pg0.map (updWidget (processedValues fv)), List.mem_map_of_mem _ hpg0,
        updWidget (processedValues fv) w0, List.mem_map_of_mem _ hw0,
        (updWidget_field_name _ w0).trans hname0⟩
  · show (commitFill doc (processedValues fv)).2 = _
    rw [commitFill_eq]
    rfl

/-- Witness for C9 on a one-widget document whose field gets the default
month value "03". -/
theorem claim_C9_witness :
    (fmGet (extractFields (fill_pdf_form [[⟨"Month", "Text", ""⟩]] []).outDoc) "Month").map
      (fun i => i.value) = some "03" ∧
    (fill_pdf_form [[⟨"Month", "Text", ""⟩]] []).fields_filled =
      (([[⟨"Month", "Text", ""⟩]] : PDoc).map (fun pg =>
        (pg.filter (fun w => vmHas (processedValues []) w.field_name)).length)).sum :=
  claim_C9_roundtrip [[⟨"Month", "Text", ""⟩]] [] "Month" "03" (by decide) (by decide)

/-! ## Claim C10: the caller's mapping is never mutated

The source statements of `_fill_pdf_form` are replayed on an explicit
state holding both local dicts; every assignment of the normalization
passes targets `processed_values`, and the caller's `field_values` is
carried through unchanged. -/

/-- The two local dicts of `_fill_pdf_form`. -/
structure FillLocals where
  field_values : VMap
  processed_values : VMap
deriving DecidableEq

/-- `processed_values = {}` plus the month loop (reads `field_values`,
writes `processed_values`). -/
def fillStep1 (s : FillLocals) : FillLocals :=
  { s with processed_values := monthNormalize s.field_values }

/-- The year-split statements (read and write `processed_values`). -/
def fillStep2 (s : FillLocals) : FillLocals :=
  { s with processed_values := yearSplit s.processed_values }

/-- The defaults loop. -/
def fillStep3 (s : FillLocals) : FillLocals :=
  { s with processed_values := applyDefaults s.processed_values }

/-- The duplicate-row loop. -/
def fillStep4 (s : FillLocals) : FillLocals :=
  { s with processed_values := clearSecondRow s.processed_values }

/-- C10: running all four normalization passes leaves the caller's
`field_values` untouched, while `processed_values` ends as the
normalized copy that the commit step uses. -/
theorem claim_C10_no_caller_mutation (fv : VMap) :
    (fillStep4 (fillStep3 (fillStep2 (fillStep1 ⟨fv, []⟩)))).field_values = fv ∧
    (fillStep4 (fillStep3 (fillStep2 (fillStep1 ⟨fv, []⟩)))).processed_values =
      processedValues fv := by
  refine ⟨rfl, ?_⟩
  simp only [fillStep1, fillStep2, fillStep3, fillStep4, processedValues]

/-! ## Claim C7: the zero-widget document yields the info outcome -/

/-- C7: on a readable document with zero widgets the inspector reports
`num_fields = 0`, and the orchestrated pipeline (with any parse and
download results of the shapes the source produces) terminates with the
`info` "no fillable fields" result — neither an error nor a filled
document. -/
theorem claim_C7_no_fillable_fields (doc : PDoc)
    (parse download : String → Dict) (generate : List String → Dict)
    (fill : String → VMap → Dict)
    (url se su u p : String) (us : List String) (sz : Nat)
    (hdoc : ∀ pg ∈ doc, pg = [])
    (hp : parse url = parseSuccessD se su (u :: us))
    (hd : download u = downloadSuccessD p sz) :
    dGet (extract_form_fields p doc) "num_fields" = some (Val.num 0) ∧
    processEmailAutomation parse download (fun q => extract_form_fields q doc)
        generate fill url
      = infoResult "PDF has no fillable form fields" := by
  have hext : extractFields doc = [] := extractPages_all_nil doc 0 [] hdoc
  constructor
  · simp [extract_form_fields, extractSuccessD, hext, dGet]
  · simp [processEmailAutomation, hp, hd, withKey, withIndexZero, withString, dGet, dGetD,
      optTruthy, parseSuccessD, downloadSuccessD, extract_form_fields, extractSuccessD, hext,
      infoResult, errorResult]

/-- Witness for C7: a one-page document with no widgets. -/
theorem claim_C7_witness :
    dGet (extract_form_fields "/tmp/p.pdf" [[]]) "num_fields" = some (Val.num 0) ∧
    processEmailAutomation (fun _ => parseSuccessD "a@b.c" "S" ["http://x/p.pdf"])
        (fun _ => downloadSuccessD "/tmp/p.pdf" 9)
        (fun q => extract_form_fields q [[]])
        (fun _ => genSuccessD []) (fun _ _ => errorResult "x") "u"
      = infoResult "PDF has no fillable form fields" :=
  claim_C7_no_fillable_fields [[]]
    (fun _ => parseSuccessD "a@b.c" "S" ["http://x/p.pdf"])
    (fun _ => downloadSuccessD "/tmp/p.pdf" 9)
    (fun _ => genSuccessD []) (fun _ _ => errorResult "x")
    "u" "a@b.c" "S" "http://x/p.pdf" "/tmp/p.pdf" [] 9
    (by decide) rfl rfl

/-! ## Claim C1: stage short-circuiting in the orchestrator

The download, inspect and synthesize stages do propagate their result
dicts unchanged; the parse stage does not (its failure is replaced by a
fixed `"No PDF found in email"` error), and the fill stage's status is
never checked — on a fill error the success-payload construction raises
`KeyError('output_path')`, so the caller receives the generic
`"Processing failed: 'output_path'"` error dict instead of the fill
stage's result. -/

/-- C1 (amended): stage-by-stage termination behaviour of
`processEmailAutomation` on stage results of the shapes the source
functions produce. -/
theorem claim_C1_stage_shortcircuit
    (parse download extract : String → Dict) (generate : List String → Dict)
    (fill : String → VMap → Dict)
    (url se su u p p2 : String) (us : List String) (sz : Nat) (fl : FMap) (gl : VMap) :
    (∀ m, parse url = errorResult m →
      processEmailAutomation parse download extract generate fill url
        = errorResult "No PDF found in email") ∧
    (parse url = parseSuccessD se su [] →
      processEmailAutomation parse download extract generate fill url
        = errorResult "No PDF found in email") ∧
    (parse url = parseSuccessD se su (u :: us) →
      (∀ m, download u = errorResult m →
        processEmailAutomation parse download extract generate fill url = download u) ∧
      (download u = downloadSuccessD p sz →
        (∀ m, extract p = errorResult m →
          processEmailAutomation parse download extract generate fill url = extract p) ∧
        (extract p = extractSuccessD p2 fl → fl ≠ [] →
          (∀ m, generate (synthNames fl) = errorResult m →
            processEmailAutomation parse download extract generate fill url
              = generate (synthNames fl)) ∧
          (generate (synthNames fl) = genSuccessD gl →
            ∀ m, fill p gl = errorResult m →
              processEmailAutomation parse download extract generate fill url
                = errorResult ("Processing failed: " ++ apos ++ "output_path" ++ apos))))) := by
  refine ⟨?_, ?_, ?_⟩
  · intro m hp
    simp [processEmailAutomation, hp, withKey, errorResult, dGet, optTruthy]
  · intro hp
    simp [processEmailAutomation, hp, withKey, errorResult, parseSuccessD, dGet, optTruthy]
  · intro hp
    refine ⟨?_, ?_⟩
    · intro m hd
      simp [processEmailAutomation, hp, hd, withKey, withIndexZero, errorResult,
        parseSuccessD, dGet, optTruthy]
    · intro hd
      refine ⟨?_, ?_⟩
      · intro m he
        simp [processEmailAutomation, hp, hd, he, withKey, withIndexZero, withString,
          errorResult, parseSuccessD, downloadSuccessD, dGet, optTruthy]
      · intro he hfl
        have hlen : fl.length ≠ 0 := fun h0 => hfl (List.length_eq_zero.mp h0)
        refine ⟨?_, ?_⟩
        · intro m hg
          simp [processEmailAutomation, hp, hd, he, hg, withKey, withIndexZero, withString,
            withFields, errorResult, parseSuccessD, downloadSuccessD, extractSuccessD,
            dGet, optTruthy, hlen]
        · intro hg m hf
          simp [processEmailAutomation, hp, hd, he, hg, hf, withKey, withIndexZero,
            withString, withFields, withVMap, errorResult, parseSuccessD, downloadSuccessD,
            extractSuccessD, genSuccessD, pyKeyErr, dGet, dGetD, optTruthy, hlen]

/-- Witness for C1 (amended): a concrete pipeline whose fill stage fails
surfaces the `KeyError('output_path')` handler text. -/
theorem claim_C1_witness :
    processEmailAutomation (fun _ => parseSuccessD "a@b.c" "Subj" ["http://x/p.pdf"])
        (fun _ => downloadSuccessD "/tmp/p.pdf" 10)
        (fun _ => extractSuccessD "/tmp/p.pdf" [("F1", ⟨"Text", "", 0⟩)])
        (fun _ => genSuccessD [("F1", "v")])
        (fun _ _ => errorResult "Failed to fill PDF: boom") "u"
      = errorResult ("Processing failed: " ++ apos ++ "output_path" ++ apos) := by
  have h := claim_C1_stage_shortcircuit
    (fun _ => parseSuccessD "a@b.c" "Subj" ["http://x/p.pdf"])
    (fun _ => downloadSuccessD "/tmp/p.pdf" 10)
    (fun _ => extractSuccessD "/tmp/p.pdf" [("F1", ⟨"Text", "", 0⟩)])
    (fun _ => genSuccessD [("F1", "v")])
    (fun _ _ => errorResult "Failed to fill PDF: boom")
    "u" "a@b.c" "Subj" "http://x/p.pdf" "/tmp/p.pdf" "/tmp/p.pdf" [] 10
    [("F1", ⟨"Text", "", 0⟩)] [("F1", "v")]
  exact ((((h.2.2 rfl).2 rfl).2 rfl (by decide)).2) rfl "Failed to fill PDF: boom" rfl

/-- Counterexample to C1 as stated: when the fill stage returns an error
result, the orchestrator does not return that result (it returns the
generic KeyError-driven error); and when the parse stage returns an
error result, the orchestrator returns the fixed "No PDF found in email"
dict, not the parse stage's result. -/
theorem claim_C1_counterexample :
    (processEmailAutomation (fun _ => parseSuccessD "a@b.c" "Subj" ["http://x/p.pdf"])
        (fun _ => downloadSuccessD "/tmp/p.pdf" 10)
        (fun _ => extractSuccessD "/tmp/p.pdf" [("F1", ⟨"Text", "", 0⟩)])
        (fun _ => genSuccessD [("F1", "v")])
        (fun _ _ => errorResult "Failed to fill PDF: boom") "u"
      ≠ errorResult "Failed to fill PDF: boom") ∧
    (processEmailAutomation (fun _ => errorResult "Failed to parse email: boom")
        (fun _ => downloadSuccessD "/tmp/p.pdf" 10)
        (fun _ => extractSuccessD "/tmp/p.pdf" [("F1", ⟨"Text", "", 0⟩)])
        (fun _ => genSuccessD [("F1", "v")])
        (fun _ _ => errorResult "Failed to fill PDF: boom") "u"
      ≠ errorResult "Failed to parse email: boom") := by
  constructor
  · decide
  · decide

/-! ## Claim C6: malformed and attachment-free payloads in `_parse_email`

Missing keys never raise in the source (every access supplies a
default); what raises is ill-typed structure.  `malformedEmail` captures
exactly the payloads whose processing raises. -/

/-- Processing of one message part raises unless the part is a dict
whose `filename` value (defaulting to `""`) is a string. -/
def partOk (p : Json) : Bool :=
  match p with
  | .obj l =>
    match ((l.find? (fun q => q.1 == "filename")).map (fun q => q.2)).getD (Json.str "") with
    | .str _ => true
    | _ => false
  | _ => false

/-- Is the value a dict? -/
def jsonIsObjB : Json → Bool
  | .obj _ => true
  | _ => false

/-- The payloads on which the body of `_parse_email` raises: a non-dict
message, a non-dict `payload` value, a non-iterable `parts` value, a
part whose processing raises, or a non-dict `sender` value. -/
def malformedEmail (j : Json) : Bool :=
  match j with
  | .obj l =>
    match ((l.find? (fun q => q.1 == "payload")).map (fun q => q.2)).getD (Json.obj []) with
    | .obj pl =>
      match jIter (((pl.find? (fun q => q.1 == "parts")).map (fun q => q.2)).getD (Json.arr [])) with
      | .error _ => true
      | .ok elems =>
        elems.any (fun p => !(partOk p)) ||
          !(jsonIsObjB (((l.find? (fun q => q.1 == "sender")).map (fun q => q.2)).getD (Json.obj [])))
    | _ => true
  | _ => true

/-- The iterated parts of the message (empty when the structure above it
is not of the expected shape). -/
def partsOf (j : Json) : List Json :=
  match j with
  | .obj l =>
    match ((l.find? (fun q => q.1 == "payload")).map (fun q => q.2)).getD (Json.obj []) with
    | .obj pl =>
      match jIter (((pl.find? (fun q => q.1 == "parts")).map (fun q => q.2)).getD (Json.arr [])) with
      | .ok elems => elems
      | .error _ => []
    | _ => []
  | _ => []

/-- Does a part carry a `.pdf` filename? -/
def partHasPdfName (p : Json) : Bool :=
  match p with
  | .obj l =>
    match ((l.find? (fun q => q.1 == "filename")).map (fun q => q.2)).getD (Json.str "") with
    | .str fs => strEndsWith fs ".pdf"
    | _ => false
  | _ => false

theorem scanParts_error_of_bad (elems : List Json)
    (h : elems.any (fun p => !(partOk p)) = true) :
    ∃ e, scanParts elems = .error e := by
  induction elems with
  | nil => simp at h
  | cons p tl ih =>
    by_cases hp : partOk p = true
    · have htl : tl.any (fun p => !(partOk p)) = true := by simpa [hp] using h
      obtain ⟨e, he⟩ := ih htl
      cases p with
      | obj l =>
        cases hf : ((l.find? (fun q => q.1 == "filename")).map (fun q => q.2)).getD (Json.str "") with
        | str fs =>
          by_cases hpdf : strEndsWith fs ".pdf" = true
          · by_cases hdrv : hasSubstr (jsonStr (Json.obj l)) "drive.google.com" = true <;>
              exact ⟨e, by simp [scanParts, jGetD, hf, hpdf, hdrv, he]⟩
          · exact ⟨e, by simp [scanParts, jGetD, hf, hpdf, he]⟩
        | null => simp [partOk, hf] at hp
        | bool b => simp [partOk, hf] at hp
        | num n => simp [partOk, hf] at hp
        | arr a => simp [partOk, hf] at hp
        | obj o => simp [partOk, hf] at hp
      | null => simp [partOk] at hp
      | bool b => simp [partOk] at hp
      | num n => simp [partOk] at hp
      | str s => simp [partOk] at hp
      | arr a => simp [partOk] at hp
    · cases p with
      | obj l =>
        cases hf : ((l.find? (fun q => q.1 == "filename")).map (fun q => q.2)).getD (Json.str "") with
        | str fs => exact absurd (by simp [partOk, hf]) hp
        | null => exact ⟨"AttributeError: object has no attribute endswith", by simp [scanParts, jGetD, hf]⟩
        | bool b => exact ⟨"AttributeError: object has no attribute endswith", by simp [scanParts, jGetD, hf]⟩
        | num n => exact ⟨"AttributeError: object has no attribute endswith", by simp [scanParts, jGetD, hf]⟩
        | arr a => exact ⟨"AttributeError: object has no attribute endswith", by simp [scanParts, jGetD, hf]⟩
        | obj o => exact ⟨"AttributeError: object has no attribute endswith", by simp [scanParts, jGetD, hf]⟩
      | null => exact ⟨"AttributeError: object has no attribute get", by simp [scanParts, jGetD]⟩
      | bool b => exact ⟨"AttributeError: object has no attribute get", by simp [scanParts, jGetD]⟩
      | num n => exact ⟨"AttributeError: object has no attribute get", by simp [scanParts, jGetD]⟩
      | str s => exact ⟨"AttributeError: object has no attribute get", by simp [scanParts, jGetD]⟩
      | arr a => exact ⟨"AttributeError: object has no attribute get", by simp [scanParts, jGetD]⟩

theorem scanParts_ok_nopdf (elems : List Json)
    (hok : ∀ p ∈ elems, partOk p = true)
    (hnp : ∀ p ∈ elems, partHasPdfName p = false) :
    scanParts elems = .ok [] := by
  induction elems with
  | nil => rfl
  | cons p tl ih =>
    have hp := hok p (List.mem_cons_self _ _)
    have hnpp := hnp p (List.mem_cons_self _ _)
    have htl := ih (fun q hq => hok q (List.mem_cons_of_mem _ hq))
      (fun q hq => hnp q (List.mem_cons_of_mem _ hq))
    cases p with
    | obj l =>
      cases hf : ((l.find? (fun q => q.1 == "filename")).map (fun q => q.2)).getD (Json.str "") with
      | str fs =>
        have hpdf : strEndsWith fs ".pdf" = false := by simpa [partHasPdfName, hf] using hnpp
        simp [scanParts, jGetD, hf, hpdf, htl]
      | null => simp [partOk, hf] at hp
      | bool b => simp [partOk, hf] at hp
      | num n => simp [partOk, hf] at hp
      | arr a => simp [partOk, hf] at hp
      | obj o => simp [partOk, hf] at hp
    | null => simp [partOk] at hp
    | bool b => simp [partOk] at hp
    | num n => simp [partOk] at hp
    | str s => simp [partOk] at hp
    | arr a => simp [partOk] at hp

theorem parseEmailData_error_of_malformed (j : Json) (h : malformedEmail j = true) :
    ∃ e, parseEmailData j = .error e := by
  cases j with
  | obj l =>
    cases hpay : ((l.find? (fun q => q.1 == "payload")).map (fun q => q.2)).getD (Json.obj []) with
    | obj pl =>
      cases hiter : jIter (((pl.find? (fun q => q.1 == "parts")).map (fun q => q.2)).getD (Json.arr [])) with
      | error e => exact ⟨e, by simp [parseEmailData, jGetD, hpay, hiter]⟩
      | ok elems =>
        cases hscan : scanParts elems with
        | error e => exact ⟨e, by simp [parseEmailData, jGetD, hpay, hiter, hscan]⟩
        | ok urls =>
          simp only [malformedEmail, hpay, hiter, Bool.or_eq_true] at h
          have hsender : jsonIsObjB (((l.find? (fun q => q.1 == "sender")).map
              (fun q => q.2)).getD (Json.obj [])) = false := by
            rcases h with hbad | hs
            · obtain ⟨e, he⟩ := scanParts_error_of_bad elems hbad
              rw [he] at hscan
              cases hscan
            · simpa using hs
          cases hsend : ((l.find? (fun q => q.1 == "sender")).map (fun q => q.2)).getD (Json.obj []) with
          | obj s => rw [hsend] at hsender; simp [jsonIsObjB] at hsender
          | null => exact ⟨"AttributeError: object has no attribute get",
              by simp [parseEmailData, jGetD, hpay, hiter, hscan, hsend]⟩
          | bool b => exact ⟨"AttributeError: object has no attribute get",
              by simp [parseEmailData, jGetD, hpay, hiter, hscan, hsend]⟩
          | num n => exact ⟨"AttributeError: object has no attribute get",
              by simp [parseEmailData, jGetD, hpay, hiter, hscan, hsend]⟩
          | str s => exact ⟨"AttributeError: object has no attribute get",
              by simp [parseEmailData, jGetD, hpay, hiter, hscan, hsend]⟩
          | arr a => exact ⟨"AttributeError: object has no attribute get",
              by simp [parseEmailData, jGetD, hpay, hiter, hscan, hsend]⟩
    | null => exact ⟨"AttributeError: object has no attribute get",
        by simp [parseEmailData, jGetD, hpay]⟩
    | bool b => exact ⟨"AttributeError: object has no attribute get",
        by simp [parseEmailData, jGetD, hpay]⟩
    | num n => exact ⟨"AttributeError: object has no attribute get",
        by simp [parseEmailData, jGetD, hpay]⟩
    | str s => exact ⟨"AttributeError: object has no attribute get",
        by simp [parseEmailData, jGetD, hpay]⟩
    | arr a => exact ⟨"AttributeError: object has no attribute get",
        by simp [parseEmailData, jGetD, hpay]⟩
  | null => exact ⟨"AttributeError: object has no attribute get", by simp [parseEmailData, jGetD]⟩
  | bool b => exact ⟨"AttributeError: object has no attribute get", by simp [parseEmailData, jGetD]⟩
  | num n => exact ⟨"AttributeError: object has no attribute get", by simp [parseEmailData, jGetD]⟩
  | str s => exact ⟨"AttributeError: object has no attribute get", by simp [parseEmailData, jGetD]⟩
  | arr a => exact ⟨"AttributeError: object has no attribute get", by simp [parseEmailData, jGetD]⟩

theorem parseEmailData_ok_nopdf (j : Json) (h : malformedEmail j = false)
    (hnp : (partsOf j).all (fun p => !(partHasPdfName p)) = true) :
    ∃ se su, parseEmailData j = .ok (ParseOut.ok se su []) := by
  cases j with
  | obj l =>
    cases hpay : ((l.find? (fun q => q.1 == "payload")).map (fun q => q.2)).getD (Json.obj []) with
    | obj pl =>
      cases hiter : jIter (((pl.find? (fun q => q.1 == "parts")).map (fun q => q.2)).getD (Json.arr [])) with
      | error e => simp [malformedEmail, hpay, hiter] at h
      | ok elems =>
        have hparts : partsOf (Json.obj l) = elems := by simp [partsOf, hpay, hiter]
        rw [hparts] at hnp
        simp only [malformedEmail, hpay, hiter, Bool.or_eq_false_iff] at h
        have hok : ∀ p ∈ elems, partOk p = true := by
          have h1 := h.1
          rw [List.any_eq_false] at h1
          intro p hp
          have := h1 p hp
          simpa using this
        have hnp' : ∀ p ∈ elems, partHasPdfName p = false := by
          rw [List.all_eq_true] at hnp
          intro p hp
          have := hnp p hp
          simpa using this
        have hscan := scanParts_ok_nopdf elems hok hnp'
        cases hsend : ((l.find? (fun q => q.1 == "sender")).map (fun q => q.2)).getD (Json.obj []) with
        | obj s =>
          exact ⟨((s.find? (fun q => q.1 == "email")).map (fun q => q.2)).getD (Json.str ""),
            ((l.find? (fun q => q.1 == "subject")).map (fun q => q.2)).getD (Json.str ""),
            by simp [parseEmailData, jGetD, hpay, hiter, hscan, hsend]⟩
        | null => rw [hsend] at h; simp [jsonIsObjB] at h
        | bool b => rw [hsend] at h; simp [jsonIsObjB] at h
        | num n => rw [hsend] at h; simp [jsonIsObjB] at h
        | str s => rw [hsend] at h; simp [jsonIsObjB] at h
        | arr a => rw [hsend] at h; simp [jsonIsObjB] at h
    | null => simp [malformedEmail, hpay] at h
    | bool b => simp [malformedEmail, hpay] at h
    | num n => simp [malformedEmail, hpay] at h
    | str s => simp [malformedEmail, hpay] at h
    | arr a => simp [malformedEmail, hpay] at h
  | null => simp [malformedEmail] at h
  | bool b => simp [malformedEmail] at h
  | num n => simp [malformedEmail] at h
  | str s => simp [malformedEmail] at h
  | arr a => simp [malformedEmail] at h

/-- C6: a malformed fetched payload — one whose processing raises, i.e.
ill-typed structure — yields an error result whose message carries the
handler's reason; a payload that is not malformed and carries no
`.pdf`-named part yields a success result with an empty URL sequence. -/
theorem claim_C6_parse_email (j : Json) :
    (malformedEmail j = true →
      ∃ e, parse_email (.ok j) = ParseOut.err ("Failed to parse email: " ++ e)) ∧
    (malformedEmail j = false →
      (partsOf j).all (fun p => !(partHasPdfName p)) = true →
      ∃ se su, parse_email (.ok j) = ParseOut.ok se su []) := by
  constructor
  · intro h
    obtain ⟨e, he⟩ := parseEmailData_error_of_malformed j h
    exact ⟨e, by simp [parse_email, he]⟩
  · intro h hnp
    obtain ⟨se, su, hok⟩ := parseEmailData_ok_nopdf j h hnp
    exact ⟨se, su, by simp [parse_email, hok]⟩

/-- Witness for C6: a non-dict payload errors with a reason, and a
pdf-free well-formed payload succeeds with no URLs. -/
theorem claim_C6_witness :
    (∃ e, parse_email (.ok (Json.str "zzz")) = ParseOut.err ("Failed to parse email: " ++ e)) ∧
    (∃ se su, parse_email (.ok (Json.obj [("subject", Json.str "hi"),
        ("payload", Json.obj [("parts", Json.arr [Json.obj [("filename", Json.str "a.txt")]])])]))
      = ParseOut.ok se su []) :=
  ⟨(claim_C6_parse_email (Json.str "zzz")).1 (by decide),
   (claim_C6_parse_email _).2 (by decide) (by decide)⟩
